import Mathlib

/-!
Verification of the transaction-management decorators of `pgmq`
(`src/pgmq/decorators.py`): the synchronous wrapper `transaction` and the
asynchronous wrapper `async_transaction`.

The wrappers are embedded shallowly as pure functions from the call's
arguments to a `CallResult`: the full trace of observable events the
decorated call emits (pool checkout and release, transaction begin, commit
and rollback, the three structured log events) together with the call's
outcome (a returned value or a raised exception).  The wrapped callable is a
parameter: a function from the injected `conn` keyword argument to its own
effect tokens and outcome.  The external connection pool is modelled by the
outcome of its scoped acquisition (an exception, or the identity of the
acquired connection), and the explicit asynchronous commit by the outcome of
that awaited call.
-/

namespace PGMQ

/-- A Python exception value: its class name, its message, and whether the
class derives from `Exception`.  An `except Exception` clause catches a
raised value only when this flag is true; `asyncio.CancelledError` (Python
3.8 and later) and `KeyboardInterrupt` derive only from `BaseException`, so
for them the flag is false. -/
structure Exn where
  ty : String
  msg : String
  isException : Bool
deriving DecidableEq, Repr

/-- Observable events of one decorated call.  `callEffect` embeds the opaque
effect tokens of the wrapped callable itself; every other constructor is an
effect of the wrapper layer: scoped pool checkout and release, transaction
lifecycle, and the three structured log events (each tagged with the logger
used, the operation name `func.__name__`, and the connection identifier
`id(conn)`). -/
inductive Event where
  | poolAcquire (connId : Nat)
  | poolRelease (connId : Nat)
  | txnBegin (connId : Nat)
  | txnCommit (connId : Nat)
  | txnRollback (connId : Nat)
  | logStart (loggerId : Nat) (op : String) (connId : Nat)
  | logSuccess (loggerId : Nat) (op : String) (connId : Nat)
  | logError (loggerId : Nat) (op : String) (e : Exn) (connId : Nat)
  | callEffect (tok : Nat)
deriving DecidableEq, Repr

instance {ε α : Type} [DecidableEq ε] [DecidableEq α] : DecidableEq (Except ε α) :=
  fun a b =>
    match a, b with
    | Except.ok x, Except.ok y =>
        if h : x = y then Decidable.isTrue (congrArg Except.ok h)
        else Decidable.isFalse (fun hc => h (Except.ok.inj hc))
    | Except.error x, Except.error y =>
        if h : x = y then Decidable.isTrue (congrArg Except.error h)
        else Decidable.isFalse (fun hc => h (Except.error.inj hc))
    | Except.ok _, Except.error _ => Decidable.isFalse (fun hc => Except.noConfusion hc)
    | Except.error _, Except.ok _ => Decidable.isFalse (fun hc => Except.noConfusion hc)

/-- Outcome of invoking the wrapped callable: its own effect tokens and
either a return value or a raised exception. -/
structure FuncResult (α : Type) where
  events : List Nat
  out : Except Exn α
deriving DecidableEq, Repr

/-- Outcome of one decorated call: the trace of events and the value
returned to the caller or the exception propagated to it. -/
structure CallResult (α : Type) where
  events : List Event
  out : Except Exn α
deriving DecidableEq, Repr

/-- A Python object as the wrappers see it: its `pool` attribute and its
`logger` attribute, each possibly absent (`hasattr` is `Option.isSome`).
The pool is modelled by the outcome of its next scoped connection
acquisition; the logger by an identifier. -/
structure Obj where
  pool : Option (Except Exn Nat)
  logger : Option Nat
deriving DecidableEq, Repr

/-- The keyword arguments the wrappers inspect: the reserved key `conn` and
the designated key `queue`.  All other keyword arguments are opaque to the
wrappers and are closed over by the callable parameter. -/
structure Kwargs where
  conn : Option Nat
  queue : Option Obj
deriving DecidableEq, Repr

/-- The `AttributeError` raised by accessing a missing `pool` or `logger`
attribute. -/
def attributeError : Exn := ⟨"AttributeError", "missing attribute", true⟩

/-- The `IndexError` raised by `args[0]` on an empty argument tuple. -/
def indexError : Exn := ⟨"IndexError", "tuple index out of range", true⟩

/-- Invoking the wrapped callable directly (the bypass branches
`return func(*args, **kwargs)`): the call's trace is exactly the callable's
own effects and its outcome is returned unchanged. -/
def liftFunc {α : Type} (r : FuncResult α) : CallResult α :=
  ⟨r.events.map Event.callEffect, r.out⟩

/-- The managed branch shared by both arms of the synchronous wrapper
(`decorators.py` lines 16-32 and 39-56): scoped connection checkout from
`recv.pool`, scoped transaction on the connection, start log on
`recv.logger`, the callable invoked with `conn` injected into its keyword
arguments, then on normal return the success log followed by the implicit
commit at scope exit, or on a raised `Exception` the error log followed by
the rollback at scope exit; an exception whose class does not derive from
`Exception` skips the `except Exception` clause but still unwinds both
scopes (rollback, release).  The pool connection is released on every exit
path. -/
def runManaged {α : Type} (recv : Obj) (op : String)
    (func : Option Nat → FuncResult α) : CallResult α :=
  match recv.pool with
  | none => ⟨[], .error attributeError⟩
  | some (Except.error e) => ⟨[], .error e⟩
  | some (Except.ok conn) =>
    match recv.logger with
    | none =>
        ⟨[.poolAcquire conn, .txnBegin conn, .txnRollback conn, .poolRelease conn],
         .error attributeError⟩
    | some lg =>
      let r := func (some conn)
      match r.out with
      | Except.ok v =>
          ⟨[.poolAcquire conn, .txnBegin conn, .logStart lg op conn]
             ++ r.events.map Event.callEffect
             ++ [.logSuccess lg op conn, .txnCommit conn, .poolRelease conn],
           Except.ok v⟩
      | Except.error e =>
          if e.isException then
            ⟨[.poolAcquire conn, .txnBegin conn, .logStart lg op conn]
               ++ r.events.map Event.callEffect
               ++ [.logError lg op e conn, .txnRollback conn, .poolRelease conn],
             Except.error e⟩
          else
            ⟨[.poolAcquire conn, .txnBegin conn, .logStart lg op conn]
               ++ r.events.map Event.callEffect
               ++ [.txnRollback conn, .poolRelease conn],
             Except.error e⟩

/-- One arm of the `else` branch of the synchronous wrapper after the queue
object has been resolved: check the reserved key, then either run managed on
the queue object's pool and logger or call through directly. -/
def queueRun {α : Type} (q : Obj) (kwargs : Kwargs) (op : String)
    (func : Option Nat → FuncResult α) : CallResult α :=
  match kwargs.conn with
  | none => runManaged q op func
  | some c => liftFunc (func (some c))

/-- The `else` branch of the synchronous wrapper (`decorators.py` lines
35-58): `queue = kwargs.get("queue") or args[0]` — the `queue` keyword
argument if present, otherwise the first positional argument; `args[0]` on
an empty tuple raises `IndexError` before the reserved key is ever
checked. -/
def queueBranch {α : Type} (args : List Obj) (kwargs : Kwargs) (op : String)
    (func : Option Nat → FuncResult α) : CallResult α :=
  match kwargs.queue with
  | some q => queueRun q kwargs op func
  | none =>
    match args with
    | a :: _ => queueRun a kwargs op func
    | [] => ⟨[], .error indexError⟩

/-- The synchronous wrapper `transaction` (`decorators.py` lines 7-61).
If the first positional argument exists and exposes both `pool` and
`logger`, it is the receiver: run managed on it unless the reserved key
`conn` is already supplied, in which case call through directly.  Otherwise
resolve a queue object from the `queue` keyword argument or the first
positional argument and do the same with its pool and logger. -/
def transaction {α : Type} (args : List Obj) (kwargs : Kwargs) (op : String)
    (func : Option Nat → FuncResult α) : CallResult α :=
  match args with
  | self :: _ =>
    if self.pool.isSome && self.logger.isSome then
      match kwargs.conn with
      | none => runManaged self op func
      | some c => liftFunc (func (some c))
    else
      queueBranch args kwargs op func
  | [] => queueBranch args kwargs op func

/-- The asynchronous wrapper `async_transaction` (`decorators.py` lines
64-93).  The receiver is always the bound `self`.  If the reserved key
`conn` is supplied, call through directly.  Otherwise: awaited scoped pool
acquire, explicit `txn.start`, start log, the callable awaited with `conn`
injected, then the explicit awaited commit (whose outcome is the
`commitOutcome` parameter; `none` means it succeeds) followed by the
success log; on a raised `Exception` — from the callable or from the
commit — the explicit rollback, then the error log, then re-raise.  An
exception whose class does not derive from `Exception` skips the
`except Exception` clause entirely: no rollback and no error log from this
layer, only the scoped release of the pooled connection.  `txn.start` and
`txn.rollback` are modelled as non-failing. -/
def async_transaction {α : Type} (selfObj : Obj) (kwargs : Kwargs)
    (commitOutcome : Option Exn) (op : String)
    (func : Option Nat → FuncResult α) : CallResult α :=
  match kwargs.conn with
  | some c => liftFunc (func (some c))
  | none =>
    match selfObj.pool with
    | none => ⟨[], .error attributeError⟩
    | some (Except.error e) => ⟨[], .error e⟩
    | some (Except.ok conn) =>
      match selfObj.logger with
      | none =>
          ⟨[.poolAcquire conn, .txnBegin conn, .poolRelease conn],
           .error attributeError⟩
      | some lg =>
        let r := func (some conn)
        match r.out with
        | Except.error e =>
          if e.isException then
            ⟨[.poolAcquire conn, .txnBegin conn, .logStart lg op conn]
               ++ r.events.map Event.callEffect
               ++ [.txnRollback conn, .logError lg op e conn, .poolRelease conn],
             Except.error e⟩
          else
            ⟨[.poolAcquire conn, .txnBegin conn, .logStart lg op conn]
               ++ r.events.map Event.callEffect
               ++ [.poolRelease conn],
             Except.error e⟩
        | Except.ok v =>
          match commitOutcome with
          | none =>
              ⟨[.poolAcquire conn, .txnBegin conn, .logStart lg op conn]
                 ++ r.events.map Event.callEffect
                 ++ [.txnCommit conn, .logSuccess lg op conn, .poolRelease conn],
               Except.ok v⟩
          | some e =>
            if e.isException then
              ⟨[.poolAcquire conn, .txnBegin conn, .logStart lg op conn]
                 ++ r.events.map Event.callEffect
                 ++ [.txnRollback conn, .logError lg op e conn, .poolRelease conn],
               Except.error e⟩
            else
              ⟨[.poolAcquire conn, .txnBegin conn, .logStart lg op conn]
                 ++ r.events.map Event.callEffect
                 ++ [.poolRelease conn],
               Except.error e⟩

/-- Recognizer for pool-checkout events. -/
def Event.isPoolAcquire : Event → Bool
  | .poolAcquire _ => true
  | _ => false

/-- Recognizer for transaction-begin events. -/
def Event.isTxnBegin : Event → Bool
  | .txnBegin _ => true
  | _ => false

/-- Recognizer for transaction-start log events. -/
def Event.isLogStart : Event → Bool
  | .logStart .. => true
  | _ => false

/-- Recognizer for transaction-success log events. -/
def Event.isLogSuccess : Event → Bool
  | .logSuccess .. => true
  | _ => false

/-- Recognizer for events emitted by the wrapper layer itself, as opposed
to the wrapped callable's own effect tokens. -/
def Event.isWrapperEvent : Event → Bool
  | .callEffect _ => false
  | _ => true

/-! Concrete fixtures used by witnesses and counterexamples. -/

/-- A representative `Exception`-derived error raised by a queue operation. -/
def exnVal : Exn := ⟨"ValueError", "boom", true⟩

/-- A cancellation: `asyncio.CancelledError` derives from `BaseException`
only, so an `except Exception` clause does not catch it. -/
def exnCancel : Exn := ⟨"CancelledError", "cancelled", false⟩

/-- A representative `Exception`-derived error raised by the explicit
asynchronous commit. -/
def exnCommit : Exn := ⟨"InterfaceError", "commit failed", true⟩

/-- A receiver exposing both `pool` (whose next checkout yields the
connection with identity 5) and `logger` (identity 3). -/
def selfOk : Obj := ⟨some (Except.ok 5), some 3⟩

/-- A queue-client object with pool (next checkout yields connection 7) and
logger (identity 4). -/
def qObj : Obj := ⟨some (Except.ok 7), some 4⟩

/-- A first positional argument exposing neither `pool` nor `logger`. -/
def bareObj : Obj := ⟨none, none⟩

/-- A callable that returns 42 with one effect token. -/
def fOk : Option Nat → FuncResult Nat := fun _ => ⟨[0], Except.ok 42⟩

/-- A callable that raises an `Exception`-derived error. -/
def fErr : Option Nat → FuncResult Nat := fun _ => ⟨[0], Except.error exnVal⟩

/-- A callable interrupted by a cancellation. -/
def fCancel : Option Nat → FuncResult Nat := fun _ => ⟨[], Except.error exnCancel⟩

/-! Helper lemmas: branch equations for the wrappers and filter facts for
traces. -/

lemma filter_map_callEffect (l : List Nat) (p : Event → Bool)
    (hp : ∀ n, p (Event.callEffect n) = false) :
    (l.map Event.callEffect).filter p = [] := by
  induction l with
  | nil => rfl
  | cons a t ih => simp [List.filter_cons, hp, ih]

lemma filter_map_acq (l : List Nat) :
    (l.map Event.callEffect).filter Event.isPoolAcquire = [] :=
  filter_map_callEffect l _ (fun _ => rfl)

lemma filter_map_begin (l : List Nat) :
    (l.map Event.callEffect).filter Event.isTxnBegin = [] :=
  filter_map_callEffect l _ (fun _ => rfl)

lemma filter_map_logStart (l : List Nat) :
    (l.map Event.callEffect).filter Event.isLogStart = [] :=
  filter_map_callEffect l _ (fun _ => rfl)

lemma filter_map_logSuccess (l : List Nat) :
    (l.map Event.callEffect).filter Event.isLogSuccess = [] :=
  filter_map_callEffect l _ (fun _ => rfl)

lemma filter_map_wrapper (l : List Nat) :
    (l.map Event.callEffect).filter Event.isWrapperEvent = [] :=
  filter_map_callEffect l _ (fun _ => rfl)

lemma txnRollback_not_mem_map (c : Nat) (l : List Nat) :
    Event.txnRollback c ∉ l.map Event.callEffect := by
  simp

lemma transaction_self_run {α : Type} (p : Except Exn Nat) (lg : Nat)
    (rest : List Obj) (qv : Option Obj) (op : String)
    (f : Option Nat → FuncResult α) :
    transaction (⟨some p, some lg⟩ :: rest) ⟨none, qv⟩ op f =
      runManaged ⟨some p, some lg⟩ op f := by
  simp [transaction]

lemma transaction_queue_run {α : Type} (q : Obj) (op : String)
    (f : Option Nat → FuncResult α) :
    transaction [] ⟨none, some q⟩ op f = runManaged q op f := by
  simp [transaction, queueBranch, queueRun]

lemma runManaged_ok {α : Type} (conn lg : Nat) (op : String)
    (f : Option Nat → FuncResult α) (fevs : List Nat) (v : α)
    (hf : f (some conn) = ⟨fevs, Except.ok v⟩) :
    runManaged ⟨some (Except.ok conn), some lg⟩ op f =
      ⟨[.poolAcquire conn, .txnBegin conn, .logStart lg op conn]
         ++ fevs.map Event.callEffect
         ++ [.logSuccess lg op conn, .txnCommit conn, .poolRelease conn],
       Except.ok v⟩ := by
  simp [runManaged, hf]

lemma runManaged_err {α : Type} (conn lg : Nat) (op : String)
    (f : Option Nat → FuncResult α) (fevs : List Nat) (e : Exn)
    (hf : f (some conn) = ⟨fevs, Except.error e⟩) (he : e.isException = true) :
    runManaged ⟨some (Except.ok conn), some lg⟩ op f =
      ⟨[.poolAcquire conn, .txnBegin conn, .logStart lg op conn]
         ++ fevs.map Event.callEffect
         ++ [.logError lg op e conn, .txnRollback conn, .poolRelease conn],
       Except.error e⟩ := by
  simp [runManaged, hf, he]

lemma runManaged_base_err {α : Type} (conn lg : Nat) (op : String)
    (f : Option Nat → FuncResult α) (fevs : List Nat) (e : Exn)
    (hf : f (some conn) = ⟨fevs, Except.error e⟩) (he : e.isException = false) :
    runManaged ⟨some (Except.ok conn), some lg⟩ op f =
      ⟨[.poolAcquire conn, .txnBegin conn, .logStart lg op conn]
         ++ fevs.map Event.callEffect
         ++ [.txnRollback conn, .poolRelease conn],
       Except.error e⟩ := by
  simp [runManaged, hf, he]

lemma asyncT_ok {α : Type} (conn lg : Nat) (qv : Option Obj) (op : String)
    (f : Option Nat → FuncResult α) (fevs : List Nat) (v : α)
    (hf : f (some conn) = ⟨fevs, Except.ok v⟩) :
    async_transaction ⟨some (Except.ok conn), some lg⟩ ⟨none, qv⟩ none op f =
      ⟨[.poolAcquire conn, .txnBegin conn, .logStart lg op conn]
         ++ fevs.map Event.callEffect
         ++ [.txnCommit conn, .logSuccess lg op conn, .poolRelease conn],
       Except.ok v⟩ := by
  simp [async_transaction, hf]

lemma asyncT_err {α : Type} (conn lg : Nat) (qv : Option Obj) (co : Option Exn)
    (op : String) (f : Option Nat → FuncResult α) (fevs : List Nat) (e : Exn)
    (hf : f (some conn) = ⟨fevs, Except.error e⟩) (he : e.isException = true) :
    async_transaction ⟨some (Except.ok conn), some lg⟩ ⟨none, qv⟩ co op f =
      ⟨[.poolAcquire conn, .txnBegin conn, .logStart lg op conn]
         ++ fevs.map Event.callEffect
         ++ [.txnRollback conn, .logError lg op e conn, .poolRelease conn],
       Except.error e⟩ := by
  simp [async_transaction, hf, he]

lemma asyncT_base_err {α : Type} (conn lg : Nat) (qv : Option Obj) (co : Option Exn)
    (op : String) (f : Option Nat → FuncResult α) (fevs : List Nat) (e : Exn)
    (hf : f (some conn) = ⟨fevs, Except.error e⟩) (he : e.isException = false) :
    async_transaction ⟨some (Except.ok conn), some lg⟩ ⟨none, qv⟩ co op f =
      ⟨[.poolAcquire conn, .txnBegin conn, .logStart lg op conn]
         ++ fevs.map Event.callEffect
         ++ [.poolRelease conn],
       Except.error e⟩ := by
  simp [async_transaction, hf, he]

lemma asyncT_commit_err {α : Type} (conn lg : Nat) (qv : Option Obj)
    (op : String) (f : Option Nat → FuncResult α) (fevs : List Nat) (v : α)
    (ce : Exn) (hf : f (some conn) = ⟨fevs, Except.ok v⟩)
    (hce : ce.isException = true) :
    async_transaction ⟨some (Except.ok conn), some lg⟩ ⟨none, qv⟩ (some ce) op f =
      ⟨[.poolAcquire conn, .txnBegin conn, .logStart lg op conn]
         ++ fevs.map Event.callEffect
         ++ [.txnRollback conn, .logError lg op ce conn, .poolRelease conn],
       Except.error ce⟩ := by
  simp [async_transaction, hf, hce]

lemma asyncT_commit_base_err {α : Type} (conn lg : Nat) (qv : Option Obj)
    (op : String) (f : Option Nat → FuncResult α) (fevs : List Nat) (v : α)
    (ce : Exn) (hf : f (some conn) = ⟨fevs, Except.ok v⟩)
    (hce : ce.isException = false) :
    async_transaction ⟨some (Except.ok conn), some lg⟩ ⟨none, qv⟩ (some ce) op f =
      ⟨[.poolAcquire conn, .txnBegin conn, .logStart lg op conn]
         ++ fevs.map Event.callEffect
         ++ [.poolRelease conn],
       Except.error ce⟩ := by
  simp [async_transaction, hf, hce]

lemma runManaged_shape {α : Type} (conn lg : Nat) (op : String)
    (f : Option Nat → FuncResult α) :
    ∃ sfx : List Event,
      (runManaged ⟨some (Except.ok conn), some lg⟩ op f).events
        = [.poolAcquire conn, .txnBegin conn, .logStart lg op conn]
            ++ (f (some conn)).events.map Event.callEffect ++ sfx
      ∧ sfx.filter Event.isPoolAcquire = []
      ∧ sfx.filter Event.isTxnBegin = []
      ∧ sfx.filter Event.isLogStart = [] := by
  rcases hr : f (some conn) with ⟨fevs, fout⟩
  cases fout with
  | ok v =>
      refine ⟨[.logSuccess lg op conn, .txnCommit conn, .poolRelease conn],
        ?_, rfl, rfl, rfl⟩
      rw [runManaged_ok conn lg op f fevs v hr]
  | error e =>
      cases he : e.isException with
      | true =>
          refine ⟨[.logError lg op e conn, .txnRollback conn, .poolRelease conn],
            ?_, rfl, rfl, rfl⟩
          rw [runManaged_err conn lg op f fevs e hr he]
      | false =>
          refine ⟨[.txnRollback conn, .poolRelease conn], ?_, rfl, rfl, rfl⟩
          rw [runManaged_base_err conn lg op f fevs e hr he]

lemma asyncT_shape {α : Type} (conn lg : Nat) (qv : Option Obj)
    (co : Option Exn) (op : String) (f : Option Nat → FuncResult α) :
    ∃ sfx : List Event,
      (async_transaction ⟨some (Except.ok conn), some lg⟩ ⟨none, qv⟩ co op f).events
        = [.poolAcquire conn, .txnBegin conn, .logStart lg op conn]
            ++ (f (some conn)).events.map Event.callEffect ++ sfx
      ∧ sfx.filter Event.isPoolAcquire = []
      ∧ sfx.filter Event.isTxnBegin = []
      ∧ sfx.filter Event.isLogStart = [] := by
  rcases hr : f (some conn) with ⟨fevs, fout⟩
  cases fout with
  | ok v =>
      cases co with
      | none =>
          refine ⟨[.txnCommit conn, .logSuccess lg op conn, .poolRelease conn],
            ?_, rfl, rfl, rfl⟩
          rw [asyncT_ok conn lg qv op f fevs v hr]
      | some ce =>
          cases hce : ce.isException with
          | true =>
              refine ⟨[.txnRollback conn, .logError lg op ce conn, .poolRelease conn],
                ?_, rfl, rfl, rfl⟩
              rw [asyncT_commit_err conn lg qv op f fevs v ce hr hce]
          | false =>
              refine ⟨[.poolRelease conn], ?_, rfl, rfl, rfl⟩
              rw [asyncT_commit_base_err conn lg qv op f fevs v ce hr hce]
  | error e =>
      cases he : e.isException with
      | true =>
          refine ⟨[.txnRollback conn, .logError lg op e conn, .poolRelease conn],
            ?_, rfl, rfl, rfl⟩
          rw [asyncT_err conn lg qv co op f fevs e hr he]
      | false =>
          refine ⟨[.poolRelease conn], ?_, rfl, rfl, rfl⟩
          rw [asyncT_base_err conn lg qv co op f fevs e hr he]

lemma shape_filter_acq (conn lg : Nat) (op : String) (m : List Nat)
    (sfx : List Event) (hs : sfx.filter Event.isPoolAcquire = []) :
    (([Event.poolAcquire conn, Event.txnBegin conn, Event.logStart lg op conn]
        ++ m.map Event.callEffect ++ sfx).filter Event.isPoolAcquire)
      = [Event.poolAcquire conn] := by
  simp [List.filter_append, filter_map_acq, hs, List.filter_cons,
    Event.isPoolAcquire]

lemma shape_filter_begin (conn lg : Nat) (op : String) (m : List Nat)
    (sfx : List Event) (hs : sfx.filter Event.isTxnBegin = []) :
    (([Event.poolAcquire conn, Event.txnBegin conn, Event.logStart lg op conn]
        ++ m.map Event.callEffect ++ sfx).filter Event.isTxnBegin)
      = [Event.txnBegin conn] := by
  simp [List.filter_append, filter_map_begin, hs, List.filter_cons,
    Event.isTxnBegin]

lemma shape_filter_logStart (conn lg : Nat) (op : String) (m : List Nat)
    (sfx : List Event) (hs : sfx.filter Event.isLogStart = []) :
    (([Event.poolAcquire conn, Event.txnBegin conn, Event.logStart lg op conn]
        ++ m.map Event.callEffect ++ sfx).filter Event.isLogStart)
      = [Event.logStart lg op conn] := by
  simp [List.filter_append, filter_map_logStart, hs, List.filter_cons,
    Event.isLogStart]

lemma runManaged_filter_acq {α : Type} (conn lg : Nat) (op : String)
    (f : Option Nat → FuncResult α) :
    (runManaged ⟨some (Except.ok conn), some lg⟩ op f).events.filter
        Event.isPoolAcquire = [Event.poolAcquire conn] := by
  obtain ⟨sfx, hsh, hacq, _, _⟩ := runManaged_shape conn lg op f
  rw [hsh]
  exact shape_filter_acq conn lg op _ sfx hacq

lemma runManaged_filter_begin {α : Type} (conn lg : Nat) (op : String)
    (f : Option Nat → FuncResult α) :
    (runManaged ⟨some (Except.ok conn), some lg⟩ op f).events.filter
        Event.isTxnBegin = [Event.txnBegin conn] := by
  obtain ⟨sfx, hsh, _, hbeg, _⟩ := runManaged_shape conn lg op f
  rw [hsh]
  exact shape_filter_begin conn lg op _ sfx hbeg

lemma runManaged_filter_logStart {α : Type} (conn lg : Nat) (op : String)
    (f : Option Nat → FuncResult α) :
    (runManaged ⟨some (Except.ok conn), some lg⟩ op f).events.filter
        Event.isLogStart = [Event.logStart lg op conn] := by
  obtain ⟨sfx, hsh, _, _, hls⟩ := runManaged_shape conn lg op f
  rw [hsh]
  exact shape_filter_logStart conn lg op _ sfx hls

lemma asyncT_filter_acq {α : Type} (conn lg : Nat) (qv : Option Obj)
    (co : Option Exn) (op : String) (f : Option Nat → FuncResult α) :
    (async_transaction ⟨some (Except.ok conn), some lg⟩ ⟨none, qv⟩ co op f).events.filter
        Event.isPoolAcquire = [Event.poolAcquire conn] := by
  obtain ⟨sfx, hsh, hacq, _, _⟩ := asyncT_shape conn lg qv co op f
  rw [hsh]
  exact shape_filter_acq conn lg op _ sfx hacq

lemma asyncT_filter_begin {α : Type} (conn lg : Nat) (qv : Option Obj)
    (co : Option Exn) (op : String) (f : Option Nat → FuncResult α) :
    (async_transaction ⟨some (Except.ok conn), some lg⟩ ⟨none, qv⟩ co op f).events.filter
        Event.isTxnBegin = [Event.txnBegin conn] := by
  obtain ⟨sfx, hsh, _, hbeg, _⟩ := asyncT_shape conn lg qv co op f
  rw [hsh]
  exact shape_filter_begin conn lg op _ sfx hbeg

/-- C1: for every decorated call with no pre-supplied connection — the
synchronous wrapper in its receiver arm and in its queue-resolution arm, and
the asynchronous wrapper — when the wrapped callable raises an
`Exception`-derived error, a transaction-error log event is emitted with the
same logger, operation name and connection identifier as the preceding
transaction-start event, the transaction is rolled back, and the original
exception propagates to the caller unchanged. -/
theorem C1_error_logged_rolled_back_reraised {α : Type} (conn lg : Nat)
    (rest : List Obj) (qv : Option Obj) (co : Option Exn) (op : String)
    (f : Option Nat → FuncResult α) (fevs : List Nat) (e : Exn)
    (hf : f (some conn) = ⟨fevs, Except.error e⟩) (he : e.isException = true) :
    transaction (⟨some (Except.ok conn), some lg⟩ :: rest) ⟨none, qv⟩ op f =
      ⟨[Event.poolAcquire conn, Event.txnBegin conn, Event.logStart lg op conn]
         ++ fevs.map Event.callEffect
         ++ [Event.logError lg op e conn, Event.txnRollback conn,
             Event.poolRelease conn],
       Except.error e⟩
    ∧ transaction [] ⟨none, some ⟨some (Except.ok conn), some lg⟩⟩ op f =
      ⟨[Event.poolAcquire conn, Event.txnBegin conn, Event.logStart lg op conn]
         ++ fevs.map Event.callEffect
         ++ [Event.logError lg op e conn, Event.txnRollback conn,
             Event.poolRelease conn],
       Except.error e⟩
    ∧ async_transaction ⟨some (Except.ok conn), some lg⟩ ⟨none, qv⟩ co op f =
      ⟨[Event.poolAcquire conn, Event.txnBegin conn, Event.logStart lg op conn]
         ++ fevs.map Event.callEffect
         ++ [Event.txnRollback conn, Event.logError lg op e conn,
             Event.poolRelease conn],
       Except.error e⟩ :=
  ⟨(transaction_self_run (Except.ok conn) lg rest qv op f).trans
     (runManaged_err conn lg op f fevs e hf he),
   (transaction_queue_run ⟨some (Except.ok conn), some lg⟩ op f).trans
     (runManaged_err conn lg op f fevs e hf he),
   asyncT_err conn lg qv co op f fevs e hf he⟩

/-- Witness for C1 at a concrete input: connection 5, logger 3, a callable
raising `ValueError`. -/
theorem C1_error_logged_rolled_back_reraised_witness :
    transaction [(⟨some (Except.ok 5), some 3⟩ : Obj)] ⟨none, none⟩ ("send") fErr =
      ⟨[Event.poolAcquire 5, Event.txnBegin 5, Event.logStart 3 ("send") 5,
        Event.callEffect 0, Event.logError 3 ("send") exnVal 5,
        Event.txnRollback 5, Event.poolRelease 5],
       Except.error exnVal⟩ :=
  (C1_error_logged_rolled_back_reraised 5 3 [] none none ("send") fErr [0] exnVal
    rfl rfl).1

/-- C2 as stated is false: in the synchronous wrapper's queue-resolution
arm, `queue = kwargs.get("queue") or args[0]` evaluates `args[0]` before the
reserved key is checked, so a call with no positional arguments and no
`queue` keyword raises `IndexError` even though a connection was
pre-supplied, and the wrapped callable is never invoked. -/
theorem C2_counterexample :
    (transaction ([] : List Obj) ⟨some 5, none⟩ ("send") fOk).out
      = Except.error indexError
    ∧ (transaction ([] : List Obj) ⟨some 5, none⟩ ("send") fOk).events = []
    ∧ liftFunc (fOk (some 5)) = ⟨[Event.callEffect 0], Except.ok 42⟩ :=
  ⟨rfl, rfl, rfl⟩

/-- C2 amended: for every decorated call with the reserved key `conn`
pre-supplied, provided the synchronous call has at least one positional
argument or a `queue` keyword argument (the asynchronous wrapper needs no
proviso), no transaction is opened, no connection is checked out, and the
wrapped callable is invoked directly with the supplied connection
unchanged. -/
theorem C2_bypass_passthrough {α : Type} (args : List Obj) (kw : Kwargs)
    (selfObj : Obj) (co : Option Exn) (op : String)
    (f : Option Nat → FuncResult α) (c : Nat)
    (hc : kw.conn = some c) (hres : args ≠ [] ∨ kw.queue ≠ none) :
    transaction args kw op f = liftFunc (f (some c))
    ∧ async_transaction selfObj kw co op f = liftFunc (f (some c)) := by
  refine ⟨?_, by simp [async_transaction, hc]⟩
  cases args with
  | nil =>
      rcases hres with h | h
      · exact absurd rfl h
      · cases hq : kw.queue with
        | none => exact absurd hq h
        | some q => simp [transaction, queueBranch, queueRun, hc, hq]
  | cons s rest =>
      by_cases hb : (s.pool.isSome && s.logger.isSome) = true
      · simp [transaction, hb, hc]
      · cases hq : kw.queue with
        | none => simp [transaction, queueBranch, queueRun, hb, hc, hq]
        | some q => simp [transaction, queueBranch, queueRun, hb, hc, hq]

/-- Witness for the amended C2 at a concrete input: one positional argument,
`conn = 9` supplied. -/
theorem C2_bypass_passthrough_witness :
    transaction [selfOk] ⟨some 9, none⟩ ("send") fOk = liftFunc (fOk (some 9))
    ∧ async_transaction selfOk ⟨some 9, none⟩ none ("send") fOk
        = liftFunc (fOk (some 9)) :=
  C2_bypass_passthrough [selfOk] ⟨some 9, none⟩ selfOk none ("send") fOk 9 rfl
    (Or.inl (List.cons_ne_nil selfOk []))

/-- C3: for every decorated call with no pre-supplied connection and a
successful checkout, exactly one connection is checked out of the pool,
exactly one transaction is begun on it, and the callable runs with that
connection injected under the reserved key, its effects appearing after the
checkout, begin and start-log events; this holds for the synchronous wrapper
(the queue-resolution arm shown equal to the receiver arm) and for the
asynchronous wrapper. -/
theorem C3_single_acquire_single_txn_injected {α : Type} (conn lg : Nat)
    (rest : List Obj) (qv : Option Obj) (co : Option Exn) (op : String)
    (f : Option Nat → FuncResult α) :
    (∃ sfx, (transaction (⟨some (Except.ok conn), some lg⟩ :: rest) ⟨none, qv⟩ op f).events
        = [Event.poolAcquire conn, Event.txnBegin conn, Event.logStart lg op conn]
            ++ (f (some conn)).events.map Event.callEffect ++ sfx)
    ∧ (transaction (⟨some (Except.ok conn), some lg⟩ :: rest) ⟨none, qv⟩ op f).events.filter
        Event.isPoolAcquire = [Event.poolAcquire conn]
    ∧ (transaction (⟨some (Except.ok conn), some lg⟩ :: rest) ⟨none, qv⟩ op f).events.filter
        Event.isTxnBegin = [Event.txnBegin conn]
    ∧ transaction [] ⟨none, some ⟨some (Except.ok conn), some lg⟩⟩ op f
        = transaction (⟨some (Except.ok conn), some lg⟩ :: rest) ⟨none, qv⟩ op f
    ∧ (∃ sfx, (async_transaction ⟨some (Except.ok conn), some lg⟩ ⟨none, qv⟩ co op f).events
        = [Event.poolAcquire conn, Event.txnBegin conn, Event.logStart lg op conn]
            ++ (f (some conn)).events.map Event.callEffect ++ sfx)
    ∧ (async_transaction ⟨some (Except.ok conn), some lg⟩ ⟨none, qv⟩ co op f).events.filter
        Event.isPoolAcquire = [Event.poolAcquire conn]
    ∧ (async_transaction ⟨some (Except.ok conn), some lg⟩ ⟨none, qv⟩ co op f).events.filter
        Event.isTxnBegin = [Event.txnBegin conn] := by
  have hself := transaction_self_run (Except.ok conn) lg rest qv op f
  refine ⟨?_, ?_, ?_, ?_, ?_, ?_, ?_⟩
  · obtain ⟨sfx, hsh, _, _, _⟩ := runManaged_shape conn lg op f
    exact ⟨sfx, by rw [hself, hsh]⟩
  · rw [hself]; exact runManaged_filter_acq conn lg op f
  · rw [hself]; exact runManaged_filter_begin conn lg op f
  · rw [hself]; exact transaction_queue_run _ op f
  · obtain ⟨sfx, hsh, _, _, _⟩ := asyncT_shape conn lg qv co op f
    exact ⟨sfx, hsh⟩
  · exact asyncT_filter_acq conn lg qv co op f
  · exact asyncT_filter_begin conn lg qv co op f

/-- C4 as stated is false for the asynchronous wrapper: a cancellation
(`asyncio.CancelledError` derives from `BaseException`, not from
`Exception`) raised while the transaction is open escapes the
`except Exception` clause, so this layer performs no rollback and logs no
error; the pooled connection is released by the scoped acquisition and the
cancellation propagates. -/
theorem C4_counterexample :
    (async_transaction selfOk ⟨none, none⟩ none ("read") fCancel).out
      = Except.error exnCancel
    ∧ (async_transaction selfOk ⟨none, none⟩ none ("read") fCancel).events
      = [Event.poolAcquire 5, Event.txnBegin 5, Event.logStart 3 ("read") 5,
         Event.poolRelease 5]
    ∧ Event.txnRollback 5 ∉
        (async_transaction selfOk ⟨none, none⟩ none ("read") fCancel).events :=
  ⟨rfl, rfl, by decide⟩

/-- C4 amended: in the synchronous wrapper any exception raised by the
callable — cancellation and timeout included — rolls the transaction back at
scope exit and is re-raised; in the asynchronous wrapper an
`Exception`-derived error (such as a timeout) triggers the explicit rollback
and is re-raised, while a cancellation deriving only from `BaseException` is
re-raised without this layer rolling the transaction back. -/
theorem C4_cancellation_paths {α : Type} (conn lg : Nat) (rest : List Obj)
    (qv : Option Obj) (co : Option Exn) (op : String)
    (f : Option Nat → FuncResult α) (fevs : List Nat) (e : Exn)
    (hf : f (some conn) = ⟨fevs, Except.error e⟩) :
    (Event.txnRollback conn ∈
        (transaction (⟨some (Except.ok conn), some lg⟩ :: rest) ⟨none, qv⟩ op f).events
      ∧ (transaction (⟨some (Except.ok conn), some lg⟩ :: rest) ⟨none, qv⟩ op f).out
        = Except.error e)
    ∧ (e.isException = true →
        Event.txnRollback conn ∈
          (async_transaction ⟨some (Except.ok conn), some lg⟩ ⟨none, qv⟩ co op f).events
        ∧ (async_transaction ⟨some (Except.ok conn), some lg⟩ ⟨none, qv⟩ co op f).out
          = Except.error e)
    ∧ (e.isException = false →
        (async_transaction ⟨some (Except.ok conn), some lg⟩ ⟨none, qv⟩ co op f).out
          = Except.error e
        ∧ Event.txnRollback conn ∉
            (async_transaction ⟨some (Except.ok conn), some lg⟩ ⟨none, qv⟩ co op f).events) := by
  refine ⟨?_, ?_, ?_⟩
  · rw [transaction_self_run]
    cases he : e.isException with
    | true =>
        rw [runManaged_err conn lg op f fevs e hf he]
        exact ⟨by simp, rfl⟩
    | false =>
        rw [runManaged_base_err conn lg op f fevs e hf he]
        exact ⟨by simp, rfl⟩
  · intro he
    rw [asyncT_err conn lg qv co op f fevs e hf he]
    exact ⟨by simp, rfl⟩
  · intro he
    rw [asyncT_base_err conn lg qv co op f fevs e hf he]
    exact ⟨rfl, by simp⟩

/-- Witness for the amended C4 at a concrete input: the synchronous wrapper
rolls back on a raised `ValueError`. -/
theorem C4_cancellation_paths_witness :
    Event.txnRollback 5 ∈ (transaction [selfOk] ⟨none, none⟩ ("send") fErr).events :=
  ((C4_cancellation_paths 5 3 [] none none ("send") fErr [0] exnVal rfl).1).1

/-- C5: receiver resolution of the synchronous wrapper: when the first
positional argument exposes both `pool` and `logger` it is the receiver and
the managed transaction runs on its pool and logger (any `queue` keyword is
ignored); otherwise the managed transaction runs on the object supplied as
the `queue` keyword argument or, failing that, on the first positional
argument. -/
theorem C5_resolution {α : Type} (self q : Obj) (rest : List Obj)
    (qv : Option Obj) (op : String) (f : Option Nat → FuncResult α) :
    (self.pool.isSome = true → self.logger.isSome = true →
        transaction (self :: rest) ⟨none, qv⟩ op f = runManaged self op f)
    ∧ ((self.pool.isSome && self.logger.isSome) = false →
        transaction (self :: rest) ⟨none, some q⟩ op f = runManaged q op f)
    ∧ ((self.pool.isSome && self.logger.isSome) = false →
        transaction (self :: rest) ⟨none, none⟩ op f = runManaged self op f)
    ∧ transaction [] ⟨none, some q⟩ op f = runManaged q op f := by
  refine ⟨?_, ?_, ?_, transaction_queue_run q op f⟩
  · intro hp hl
    simp [transaction, hp, hl]
  · intro hb
    simp [transaction, queueBranch, queueRun, hb]
  · intro hb
    simp [transaction, queueBranch, queueRun, hb]

/-- Witness for C5 at concrete inputs: a receiver with both attributes, a
bare first argument with a `queue` keyword, a bare first argument alone, and
no positional arguments with a `queue` keyword. -/
theorem C5_resolution_witness :
    transaction [selfOk] ⟨none, some qObj⟩ ("send") fOk
        = runManaged selfOk ("send") fOk
    ∧ transaction [bareObj] ⟨none, some qObj⟩ ("send") fOk
        = runManaged qObj ("send") fOk
    ∧ transaction [bareObj] ⟨none, none⟩ ("send") fOk
        = runManaged bareObj ("send") fOk
    ∧ transaction ([] : List Obj) ⟨none, some qObj⟩ ("send") fOk
        = runManaged qObj ("send") fOk :=
  ⟨(C5_resolution selfOk qObj [] (some qObj) ("send") fOk).1 rfl rfl,
   (C5_resolution bareObj qObj [] (some qObj) ("send") fOk).2.1 rfl,
   (C5_resolution bareObj qObj [] none ("send") fOk).2.2.1 rfl,
   (C5_resolution bareObj qObj [] none ("send") fOk).2.2.2⟩

/-- C6 as stated is false: the connection identifier in the log events is
`id(conn)`, the identity of the pooled connection object, and a pool that
hands the same connection object to two consecutive scoped checkouts — the
normal behaviour of a connection pool — yields the same identifier in both
invocations' log events, here 5 and 5. -/
theorem C6_counterexample :
    (transaction [selfOk] ⟨none, none⟩ ("send") fOk).events.filter Event.isLogStart
      = [Event.logStart 3 ("send") 5]
    ∧ (transaction [selfOk] ⟨none, none⟩ ("pop") fErr).events.filter Event.isLogStart
      = [Event.logStart 3 ("pop") 5] :=
  ⟨rfl, rfl⟩

/-- C6 amended: two invocations of the synchronous wrapper with independent
argument sets each open exactly one transaction and tag their log events
with the identifier of the connection that invocation checked out; the two
identifiers are distinct exactly when the pool yields distinct connection
objects for the two checkouts. -/
theorem C6_two_invocations {α β : Type} (c1 c2 lg1 lg2 : Nat)
    (rest1 rest2 : List Obj) (qv1 qv2 : Option Obj) (op1 op2 : String)
    (f1 : Option Nat → FuncResult α) (f2 : Option Nat → FuncResult β)
    (hne : c1 ≠ c2) :
    (transaction (⟨some (Except.ok c1), some lg1⟩ :: rest1) ⟨none, qv1⟩ op1 f1).events.filter
        Event.isTxnBegin = [Event.txnBegin c1]
    ∧ (transaction (⟨some (Except.ok c2), some lg2⟩ :: rest2) ⟨none, qv2⟩ op2 f2).events.filter
        Event.isTxnBegin = [Event.txnBegin c2]
    ∧ (transaction (⟨some (Except.ok c1), some lg1⟩ :: rest1) ⟨none, qv1⟩ op1 f1).events.filter
        Event.isLogStart = [Event.logStart lg1 op1 c1]
    ∧ (transaction (⟨some (Except.ok c2), some lg2⟩ :: rest2) ⟨none, qv2⟩ op2 f2).events.filter
        Event.isLogStart = [Event.logStart lg2 op2 c2]
    ∧ Event.logStart lg1 op1 c1 ≠ Event.logStart lg2 op2 c2 := by
  refine ⟨?_, ?_, ?_, ?_, ?_⟩
  · rw [transaction_self_run]; exact runManaged_filter_begin c1 lg1 op1 f1
  · rw [transaction_self_run]; exact runManaged_filter_begin c2 lg2 op2 f2
  · rw [transaction_self_run]; exact runManaged_filter_logStart c1 lg1 op1 f1
  · rw [transaction_self_run]; exact runManaged_filter_logStart c2 lg2 op2 f2
  · simp [hne]

/-- Witness for the amended C6 at concrete inputs: connections 5 and 6. -/
theorem C6_two_invocations_witness :
    (transaction [(⟨some (Except.ok 6), some 3⟩ : Obj)] ⟨none, none⟩ ("pop") fErr).events.filter
        Event.isLogStart = [Event.logStart 3 ("pop") 6] :=
  (C6_two_invocations 5 6 3 3 [] [] none none ("send") ("pop") fOk fErr
    (by decide)).2.2.2.1

/-- C7: when the scoped checkout of a connection from the pool itself
raises, the exception propagates unchanged and the trace is empty: no
transaction is opened and no transaction-start, success or error log event
is emitted — in the synchronous wrapper's receiver arm and queue arm and in
the asynchronous wrapper. -/
theorem C7_acquisition_failure {α : Type} (lg : Nat) (lgq : Option Nat)
    (rest : List Obj) (qv : Option Obj) (co : Option Exn) (op : String)
    (f : Option Nat → FuncResult α) (e : Exn) :
    transaction (⟨some (Except.error e), some lg⟩ :: rest) ⟨none, qv⟩ op f
      = ⟨[], Except.error e⟩
    ∧ transaction [] ⟨none, some ⟨some (Except.error e), lgq⟩⟩ op f
      = ⟨[], Except.error e⟩
    ∧ async_transaction ⟨some (Except.error e), some lg⟩ ⟨none, qv⟩ co op f
      = ⟨[], Except.error e⟩ :=
  ⟨rfl, rfl, rfl⟩

/-- C8 as stated is false for the asynchronous wrapper: when the explicit
commit raises after the callable returned normally, no transaction-success
log event fires and the caller receives the commit exception instead of the
callable's return value 42. -/
theorem C8_counterexample :
    (async_transaction selfOk ⟨none, none⟩ (some exnCommit) ("send") fOk).out
      = Except.error exnCommit
    ∧ (async_transaction selfOk ⟨none, none⟩ (some exnCommit) ("send") fOk).events.filter
        Event.isLogSuccess = []
    ∧ (fOk (some 5)).out = Except.ok 42 :=
  ⟨rfl, rfl, rfl⟩

/-- C8 amended: with no pre-supplied connection, when the wrapped callable
returns normally — and, for the asynchronous wrapper, the explicit commit
succeeds — a transaction-success log event fires after the callable's own
effects and before control returns, and the caller receives exactly the
callable's return value. -/
theorem C8_success_path {α : Type} (conn lg : Nat) (rest : List Obj)
    (qv : Option Obj) (op : String) (f : Option Nat → FuncResult α)
    (fevs : List Nat) (v : α) (hf : f (some conn) = ⟨fevs, Except.ok v⟩) :
    transaction (⟨some (Except.ok conn), some lg⟩ :: rest) ⟨none, qv⟩ op f =
      ⟨[Event.poolAcquire conn, Event.txnBegin conn, Event.logStart lg op conn]
         ++ fevs.map Event.callEffect
         ++ [Event.logSuccess lg op conn, Event.txnCommit conn,
             Event.poolRelease conn],
       Except.ok v⟩
    ∧ transaction [] ⟨none, some ⟨some (Except.ok conn), some lg⟩⟩ op f
      = transaction (⟨some (Except.ok conn), some lg⟩ :: rest) ⟨none, qv⟩ op f
    ∧ async_transaction ⟨some (Except.ok conn), some lg⟩ ⟨none, qv⟩ none op f =
      ⟨[Event.poolAcquire conn, Event.txnBegin conn, Event.logStart lg op conn]
         ++ fevs.map Event.callEffect
         ++ [Event.txnCommit conn, Event.logSuccess lg op conn,
             Event.poolRelease conn],
       Except.ok v⟩ := by
  refine ⟨?_, ?_, asyncT_ok conn lg qv op f fevs v hf⟩
  · rw [transaction_self_run]
    exact runManaged_ok conn lg op f fevs v hf
  · rw [transaction_queue_run, transaction_self_run]

/-- Witness for the amended C8 at a concrete input: connection 5, logger 3,
a callable returning 42. -/
theorem C8_success_path_witness :
    transaction [selfOk] ⟨none, none⟩ ("send") fOk =
      ⟨[Event.poolAcquire 5, Event.txnBegin 5, Event.logStart 3 ("send") 5,
        Event.callEffect 0, Event.logSuccess 3 ("send") 5, Event.txnCommit 5,
        Event.poolRelease 5],
       Except.ok 42⟩ :=
  (C8_success_path 5 3 [] none ("send") fOk [0] 42 rfl).1

/-- C9: when the reserved key `conn` is pre-supplied, the wrappers emit no
event of their own — every event in the call's trace is an effect of the
wrapped callable — and the asynchronous wrapper is an exact passthrough of
the callable's result. -/
theorem C9_frame {α : Type} (args : List Obj) (kw : Kwargs) (selfObj : Obj)
    (co : Option Exn) (op : String) (f : Option Nat → FuncResult α) (c : Nat)
    (hc : kw.conn = some c) :
    ((transaction args kw op f).events.filter Event.isWrapperEvent = [])
    ∧ (∀ ev ∈ (transaction args kw op f).events,
        ev ∈ (f (some c)).events.map Event.callEffect)
    ∧ async_transaction selfObj kw co op f = liftFunc (f (some c)) := by
  have hsync : transaction args kw op f = liftFunc (f (some c))
      ∨ transaction args kw op f = ⟨[], Except.error indexError⟩ := by
    cases args with
    | nil =>
        cases hq : kw.queue with
        | none => right; simp [transaction, queueBranch, hq]
        | some q => left; simp [transaction, queueBranch, queueRun, hq, hc]
    | cons s rest =>
        left
        by_cases hb : (s.pool.isSome && s.logger.isSome) = true
        · simp [transaction, hb, hc]
        · cases hq : kw.queue with
          | none => simp [transaction, queueBranch, queueRun, hb, hq, hc]
          | some q => simp [transaction, queueBranch, queueRun, hb, hq, hc]
  refine ⟨?_, ?_, by simp [async_transaction, hc]⟩
  · rcases hsync with h | h
    · rw [h]
      exact filter_map_wrapper (f (some c)).events
    · rw [h]
      rfl
  · rcases hsync with h | h
    · rw [h]
      intro ev hev
      exact hev
    · rw [h]
      intro ev hev
      cases hev

/-- Witness for C9 at a concrete input (the queue arm with no positional
arguments: no wrapper event is emitted even on the `IndexError` path). -/
theorem C9_frame_witness :
    (transaction ([] : List Obj) ⟨some 5, none⟩ ("send") fOk).events.filter
        Event.isWrapperEvent = [] :=
  (C9_frame [] ⟨some 5, none⟩ selfOk none ("send") fOk 5 rfl).1

/-- C10: in the asynchronous wrapper, when the explicit commit raises after
the callable returned normally, the transaction is rolled back, a
transaction-error event carrying the commit exception is logged, the commit
exception is re-raised to the caller, and no transaction-success event is
logged for that call. -/
theorem C10_commit_failure {α : Type} (conn lg : Nat) (qv : Option Obj)
    (op : String) (f : Option Nat → FuncResult α) (fevs : List Nat) (v : α)
    (ce : Exn) (hf : f (some conn) = ⟨fevs, Except.ok v⟩)
    (hce : ce.isException = true) :
    async_transaction ⟨some (Except.ok conn), some lg⟩ ⟨none, qv⟩ (some ce) op f =
      ⟨[Event.poolAcquire conn, Event.txnBegin conn, Event.logStart lg op conn]
         ++ fevs.map Event.callEffect
         ++ [Event.txnRollback conn, Event.logError lg op ce conn,
             Event.poolRelease conn],
       Except.error ce⟩
    ∧ (async_transaction ⟨some (Except.ok conn), some lg⟩ ⟨none, qv⟩ (some ce) op f).events.filter
        Event.isLogSuccess = [] := by
  have h := asyncT_commit_err conn lg qv op f fevs v ce hf hce
  refine ⟨h, ?_⟩
  rw [h]
  simp [List.filter_append, filter_map_logSuccess, List.filter_cons,
    Event.isLogSuccess]

/-- Witness for C10 at a concrete input: connection 5, commit raising
`InterfaceError` after the callable returned 42. -/
theorem C10_commit_failure_witness :
    (async_transaction selfOk ⟨none, none⟩ (some exnCommit) ("send") fOk).events.filter
        Event.isLogSuccess = [] :=
  (C10_commit_failure 5 3 none ("send") fOk [0] 42 exnCommit rfl rfl).2

end PGMQ
